import Mathlib

/-!
Verification of the streaming chat backend (`streaming_bcn`).

This file gives a shallow embedding, in Lean 4, of the in-memory
session registry (`SessionManager`), the message buffering engine
(`MessageBufferService`), the chat gateway send-message handler
(`ChatGateway.handleMessage`) and the moderation workflow
(`AdminService`), and proves or refutes the specification claims
about them.

Modelling conventions:
* JavaScript `Map`s whose iteration order is observable (the
  `userSessions` map is scanned entry-by-entry with `break`) are
  modelled as association lists in insertion order, with JS `Map`
  get/set/delete semantics.
* `Map`s used purely as key-value stores are modelled as functions
  `String → Option _` (a `Map` can never hold a key twice).
* Timestamps (`Date.now()`, `new Date()`) are integers supplied as
  explicit parameters; `generateId()` results are supplied as
  explicit `String` parameters.
* The durable message store is modelled as the list of records the
  service has successfully handed to `insertMany`; each call to
  `insertMany` either succeeds or fails, which is modelled by a
  boolean outcome parameter for that call.
* Asynchronous fire-and-forget dispatches (the emergency flush
  triggered inside `addMessage`, the periodic timer) are modelled as
  separate invocations of the same `flushToDatabase` step.
-/

/-! ### JS collection primitives -/

/-- JS `Map.get` on an association list (first entry wins, as in a
`Map`, which never holds a key twice). -/
def jsGet (m : List (String × β)) (k : String) : Option β :=
  (m.find? (fun e => e.1 = k)).map (fun e => e.2)

/-- JS `Map.set`: replace the value in place if the key is present,
otherwise append the new entry (insertion order). -/
def jsSet (m : List (String × β)) (k : String) (v : β) : List (String × β) :=
  if m.any (fun e => e.1 = k) then
    m.map (fun e => if e.1 = k then (k, v) else e)
  else
    m ++ [(k, v)]

/-- JS `Map.delete`: remove the entry with the given key. -/
def jsDelete (m : List (String × β)) (k : String) : List (String × β) :=
  m.eraseP (fun e => e.1 = k)

/-- Replace the first entry satisfying `p` (a `for … of` loop that
mutates the matching entry and `break`s). -/
def updateFirst (p : α → Bool) (f : α → α) : List α → List α
  | [] => []
  | x :: xs => if p x then f x :: xs else x :: updateFirst p f xs

/-- Pointwise update of a function-modelled map. -/
def mapSet (m : String → α) (k : String) (v : α) : String → α :=
  fun x => if x = k then v else m x

/-- JS `Set.add` (sets modelled as duplicate-free lists). -/
def setAdd (l : List String) (u : String) : List String :=
  if u ∈ l then l else l ++ [u]

/-- JS `Set.delete`. -/
def setDelete (l : List String) (u : String) : List String :=
  l.filter (fun x => x ≠ u)

/-- The last `n` elements of a list (what `splice(0, len - n)` keeps
and what `slice(-n)` returns for `n > 0`). -/
def takeLast (l : List α) (n : Nat) : List α :=
  l.drop (l.length - n)

/-- JS `Array.slice(-limit)`: for `limit > 0` the last `limit`
elements; for `limit = 0`, `slice(-0)` is `slice(0)`, the whole
array. -/
def jsSliceLast (l : List α) (limit : Nat) : List α :=
  if limit = 0 then l else takeLast l limit

/-! ### MessageBufferService (src/services/message-buffer.service.ts) -/

/-- A buffered chat message (`PendingMessage` interface). -/
structure PendingMessage where
  id : String
  roomId : String
  userId : String
  username : String
  message : String
  type : String
  timestamp : Int
deriving DecidableEq

/-- The record shape handed to `chatMessageModel.insertMany`. -/
structure MongoMessage where
  roomId : String
  userId : String
  username : String
  message : String
  type : String
  timestamp : Int
  isDeleted : Bool
deriving DecidableEq

/-- `MAX_RECENT_MESSAGES` (recent-cache capacity per room). The code
fixes it to 100; the buffer operations below take the capacity as a
parameter `maxRecent` so that the spec's capacity-2 scenario is an
instance. -/
def MAX_RECENT_MESSAGES : Nat := 100

/-- `EMERGENCY_FLUSH_SIZE` (emergency flush threshold). -/
def EMERGENCY_FLUSH_SIZE : Nat := 1000

/-- State of `MessageBufferService` plus the durable store:
`recentMessages` is the per-room recent cache (a `Map`, so a deleted
room is `none`), `pendingWrites` is the write queue, and `inserted`
is the list of records successfully written by `insertMany`. -/
structure BufState where
  recentMessages : String → Option (List PendingMessage)
  pendingWrites : List PendingMessage
  inserted : List MongoMessage

/-- Fresh service state over an empty durable store. -/
def initBuf : BufState :=
  { recentMessages := fun _ => none, pendingWrites := [], inserted := [] }

/-- The mapping applied to each message inside `flushToDatabase`
before `insertMany`. -/
def toMongo (m : PendingMessage) : MongoMessage :=
  { roomId := m.roomId, userId := m.userId, username := m.username,
    message := m.message, type := m.type, timestamp := m.timestamp,
    isDeleted := false }

/-- `MessageBufferService.addMessage`: build the message, append it to
the room's recent cache (then `splice` away everything beyond the
capacity), append it to the write queue, and return it. The
emergency flush the method may dispatch asynchronously is a separate
`flushToDatabase` step. -/
def addMessage (maxRecent : Nat) (s : BufState)
    (roomId userId username message type id : String) (now : Int) :
    PendingMessage × BufState :=
  let messageData : PendingMessage :=
    { id := id, roomId := roomId, userId := userId, username := username,
      message := message, type := type, timestamp := now }
  let roomMessages := ((s.recentMessages roomId).getD []) ++ [messageData]
  let roomMessages :=
    if roomMessages.length > maxRecent then
      roomMessages.drop (roomMessages.length - maxRecent)
    else roomMessages
  (messageData,
    { s with
      recentMessages := mapSet s.recentMessages roomId (some roomMessages),
      pendingWrites := s.pendingWrites ++ [messageData] })

/-- `MessageBufferService.getRecentMessages`:
`messages.slice(-limit).reverse()` over the room's cache. -/
def getRecentMessages (s : BufState) (roomId : String) (limit : Nat) :
    List PendingMessage :=
  (jsSliceLast ((s.recentMessages roomId).getD []) limit).reverse

/-- `MessageBufferService.getRoomMessageCount`. -/
def getRoomMessageCount (s : BufState) (roomId : String) : Nat :=
  ((s.recentMessages roomId).getD []).length

/-- `MessageBufferService.clearRoomMessages`: delete the room's recent
cache and filter its entries out of the write queue. -/
def clearRoomMessages (s : BufState) (roomId : String) : BufState :=
  { s with
    recentMessages := mapSet s.recentMessages roomId none,
    pendingWrites := s.pendingWrites.filter (fun msg => msg.roomId ≠ roomId) }

/-- `MessageBufferService.flushToDatabase`, with `ok` the outcome of
this call's `insertMany`: drain up to `batchSize` entries; on success
they are appended to the durable store; on failure they are
`unshift`ed back to the head of the queue, and if the queue then
exceeds `EMERGENCY_FLUSH_SIZE * 2` entries, everything but the newest
`EMERGENCY_FLUSH_SIZE` entries is spliced away. -/
def flushToDatabase (batchSize : Nat) (ok : Bool) (s : BufState) : BufState :=
  if s.pendingWrites.length = 0 then s
  else
    let messagesToWrite := s.pendingWrites.take batchSize
    let remaining := s.pendingWrites.drop batchSize
    if ok then
      { s with pendingWrites := remaining,
               inserted := s.inserted ++ messagesToWrite.map toMongo }
    else
      let requeued := messagesToWrite ++ remaining
      if requeued.length > EMERGENCY_FLUSH_SIZE * 2 then
        { s with pendingWrites :=
            requeued.drop (requeued.length - EMERGENCY_FLUSH_SIZE) }
      else
        { s with pendingWrites := requeued }

/-- `MessageBufferService.onApplicationShutdown` runs
`while (pendingWrites.length > 0) await flushToDatabase()`; this is
`n` iterations of that loop body against a store whose every
`insertMany` fails. -/
def shutdownFlushAllFailing (batchSize : Nat) : Nat → BufState → BufState
  | 0, s => s
  | n + 1, s => shutdownFlushAllFailing batchSize n (flushToDatabase batchSize false s)

/-- Modelled from the spec: `MessageBufferService.deleteMessage` is
called by `AdminService.deleteMessage` but its definition is missing
from the sources; per the spec it "removes from RecentCache if
present" and reports whether the message was found there. -/
def bufferDeleteMessage (s : BufState) (messageId roomId : String) :
    Bool × BufState :=
  let msgs := (s.recentMessages roomId).getD []
  if msgs.any (fun m => m.id = messageId) then
    let remaining := msgs.filter (fun m => m.id ≠ messageId)
    (true,
      { s with recentMessages := mapSet s.recentMessages roomId (some remaining) })
  else (false, s)

/-! ### Sequences of addMessage calls (for the cache claims) -/

/-- The arguments of one `addMessage` call. -/
structure AddCall where
  roomId : String
  userId : String
  username : String
  message : String
  type : String
  id : String
  now : Int
deriving DecidableEq

/-- The `PendingMessage` an `addMessage` call constructs. -/
def callMsg (c : AddCall) : PendingMessage :=
  { id := c.id, roomId := c.roomId, userId := c.userId,
    username := c.username, message := c.message, type := c.type,
    timestamp := c.now }

/-- Apply one `addMessage` call to the state. -/
def applyAdd (maxRecent : Nat) (s : BufState) (c : AddCall) : BufState :=
  (addMessage maxRecent s c.roomId c.userId c.username c.message c.type
    c.id c.now).2

/-- Apply a sequence of `addMessage` calls. -/
def addMessages (maxRecent : Nat) (s : BufState) (calls : List AddCall) :
    BufState :=
  calls.foldl (applyAdd maxRecent) s

/-- All messages ever added to a room by a call sequence, oldest
first. -/
def roomHistory (room : String) (calls : List AddCall) : List PendingMessage :=
  (calls.filter (fun c => c.roomId = room)).map callMsg

/-- Every room's recent cache stays within `cap`. -/
def recentBounded (cap : Nat) (s : BufState) : Prop :=
  ∀ room, ((s.recentMessages room).getD []).length ≤ cap

/-! ### Demo inputs for concrete scenarios -/

/-- First send of the capacity-2 scenario: "hello". -/
def callHello : AddCall :=
  { roomId := "r1", userId := "u1", username := "alice", message := "hello",
    type := "text", id := "m1", now := 1 }

/-- Second send of the capacity-2 scenario: "world". -/
def callWorld : AddCall :=
  { roomId := "r1", userId := "u1", username := "alice", message := "world",
    type := "text", id := "m2", now := 2 }

/-- Third send of the capacity-2 scenario: "again". -/
def callAgain : AddCall :=
  { roomId := "r1", userId := "u1", username := "alice", message := "again",
    type := "text", id := "m3", now := 3 }

/-- The capacity-2 scenario's call sequence. -/
def demoCalls : List AddCall := [callHello, callWorld, callAgain]

/-- A buffer state whose write queue holds three messages. -/
def threeMsgState : BufState :=
  { recentMessages := fun _ => none,
    pendingWrites := [callMsg callHello, callMsg callWorld, callMsg callAgain],
    inserted := [] }

/-- A buffer state whose write queue holds one message. -/
def oneMsgState : BufState :=
  { recentMessages := fun _ => none,
    pendingWrites := [callMsg callHello],
    inserted := [] }

/-- The `n`-th entry of an overflowing write queue. -/
def bigMsg (n : Nat) : PendingMessage :=
  { id := toString n, roomId := "r1", userId := "u1", username := "alice",
    message := "x", type := "text", timestamp := 0 }

/-- A buffer state whose write queue holds 2001 entries, one over the
`EMERGENCY_FLUSH_SIZE * 2` ceiling. -/
def bigQueueState : BufState :=
  { recentMessages := fun _ => none,
    pendingWrites := (List.range 2001).map bigMsg,
    inserted := [] }

/-- A send into a second room "r2" (frame-effect scenarios). -/
def callR2 : AddCall :=
  { roomId := "r2", userId := "u2", username := "bob", message := "hi",
    type := "text", id := "m4", now := 4 }

/-- A buffer holding one message of room "r1" and one of room "r2". -/
def demoBufTwoRooms : BufState :=
  addMessages 100 initBuf [callHello, callR2]

/-- A live-room record (the fields `endRoom` touches). -/
structure LiveRoomRec where
  roomId : String
  isActive : Bool
  endTime : Option Int
deriving DecidableEq

/-- `ChatService.endRoom`: clear the room's buffered messages from the
`MessageBufferService` (no flush first), then mark the room inactive
in the room store. -/
def endRoom (buf : BufState) (rooms : List LiveRoomRec) (roomId : String)
    (now : Int) : BufState × List LiveRoomRec :=
  (clearRoomMessages buf roomId,
    updateFirst (fun r => r.roomId = roomId)
      (fun r => { r with isActive := false, endTime := some now }) rooms)

/-! ### SessionManager (src/services/session-manager.service.ts) -/

/-- `UserSession` interface. -/
structure UserSession where
  userId : String
  username : String
  socketId : String
  roomId : String
  joinTime : Int
  lastActivity : Int
deriving DecidableEq

/-- State of `SessionManager`. `userSessions` is iterated
entry-by-entry (with `break`), so it is an association list in
insertion order; the other maps are only read pointwise and are
modelled as functions (`roomUsers`/`typingUsers` hold JS `Set`s,
modelled as duplicate-free lists). -/
structure SMState where
  userSessions : List (String × UserSession)
  userRooms : String → Option String
  roomUsers : String → List String
  roomMessageCounts : String → Nat
  typingUsers : String → List String
  rateLimitMap : String → List Int

/-- Fresh `SessionManager` state. -/
def initSM : SMState :=
  { userSessions := [], userRooms := fun _ => none,
    roomUsers := fun _ => [], roomMessageCounts := fun _ => 0,
    typingUsers := fun _ => [], rateLimitMap := fun _ => [] }

/-- `SessionManager.removeUserFromAllRooms`: look up the user's room
and drop the user from that room's member set and typing set, delete
the `userRooms` entry, then scan `userSessions` and delete the first
session whose `userId` matches (the loop `break`s). -/
def removeUserFromAllRooms (s : SMState) (userId : String) : SMState :=
  let s1 :=
    match s.userRooms userId with
    | some roomId =>
      { s with
        roomUsers :=
          mapSet s.roomUsers roomId (setDelete (s.roomUsers roomId) userId),
        typingUsers :=
          mapSet s.typingUsers roomId
            (setDelete (s.typingUsers roomId) userId) }
    | none => s
  let s2 := { s1 with userRooms := mapSet s1.userRooms userId none }
  { s2 with
    userSessions := s2.userSessions.eraseP (fun e => e.2.userId = userId) }

/-- `SessionManager.addUserToRoom`: first evict any prior session of
this user, then store the new session, point `userRooms` at the new
room and add the user to the room's member set. -/
def addUserToRoom (s : SMState) (socketId userId username roomId : String)
    (now : Int) : SMState :=
  let s1 := removeUserFromAllRooms s userId
  let userSession : UserSession :=
    { userId := userId, username := username, socketId := socketId,
      roomId := roomId, joinTime := now, lastActivity := now }
  let s2 :=
    { s1 with
      userSessions := jsSet s1.userSessions socketId userSession,
      userRooms := mapSet s1.userRooms userId (some roomId) }
  { s2 with
    roomUsers := mapSet s2.roomUsers roomId (setAdd (s2.roomUsers roomId) userId) }

/-- `SessionManager.removeUserFromRoom`: delete the socket's session
from every structure; returns the removed session (or `none`). -/
def removeUserFromRoom (s : SMState) (socketId : String) :
    SMState × Option UserSession :=
  match jsGet s.userSessions socketId with
  | none => (s, none)
  | some sess =>
    let s1 :=
      { s with
        userSessions := jsDelete s.userSessions socketId,
        userRooms := mapSet s.userRooms sess.userId none }
    let s2 :=
      { s1 with
        roomUsers :=
          mapSet s1.roomUsers sess.roomId
            (setDelete (s1.roomUsers sess.roomId) sess.userId) }
    let s3 :=
      { s2 with
        typingUsers :=
          mapSet s2.typingUsers sess.roomId
            (setDelete (s2.typingUsers sess.roomId) sess.userId) }
    (s3, some sess)

/-- `SessionManager.getUserBySocketId`. -/
def getUserBySocketId (s : SMState) (socketId : String) : Option UserSession :=
  jsGet s.userSessions socketId

/-- `SessionManager.getUserSession` (= `getUserByUserId`): first
session in insertion order whose `userId` matches. -/
def getUserSession (s : SMState) (userId : String) : Option UserSession :=
  (s.userSessions.find? (fun e => e.2.userId = userId)).map (fun e => e.2)

/-- `SessionManager.getRoomUserCount`. -/
def getRoomUserCount (s : SMState) (roomId : String) : Nat :=
  (s.roomUsers roomId).length

/-- `SessionManager.updateUserActivity`: set `lastActivity` of the
first session whose `userId` matches (the loop `break`s). -/
def updateUserActivity (s : SMState) (userId : String) (now : Int) : SMState :=
  { s with
    userSessions :=
      updateFirst (fun e => e.2.userId = userId)
        (fun e => (e.1, { e.2 with lastActivity := now })) s.userSessions }

/-- `SessionManager.incrementMessageCount`. -/
def incrementMessageCount (s : SMState) (roomId : String) : SMState :=
  { s with
    roomMessageCounts :=
      mapSet s.roomMessageCounts roomId (s.roomMessageCounts roomId + 1) }

/-- `SessionManager.addTypingUser`. -/
def addTypingUser (s : SMState) (roomId userId : String) : SMState :=
  { s with
    typingUsers :=
      mapSet s.typingUsers roomId (setAdd (s.typingUsers roomId) userId) }

/-- `SessionManager.removeTypingUser`. -/
def removeTypingUser (s : SMState) (roomId userId : String) : SMState :=
  { s with
    typingUsers :=
      mapSet s.typingUsers roomId (setDelete (s.typingUsers roomId) userId) }

/-- `SessionManager.checkRateLimit`: prune the socket's recorded
timestamps to those with `now - time < windowMs`; reject if at least
`maxRequests` remain (state unchanged), otherwise record `now` along
with the pruned list and admit. -/
def checkRateLimit (s : SMState) (socketId : String) (maxRequests : Nat)
    (windowMs now : Int) : Bool × SMState :=
  let requests := s.rateLimitMap socketId
  let recentRequests := requests.filter (fun time => now - time < windowMs)
  if recentRequests.length ≥ maxRequests then (false, s)
  else
    (true,
      { s with
        rateLimitMap :=
          mapSet s.rateLimitMap socketId (recentRequests ++ [now]) })

/-- `SessionManager.disconnectUser`: find the first session of this
user (the loop `break`s) and remove it via `removeUserFromRoom`. -/
def disconnectUser (s : SMState) (userId : String) : SMState :=
  match s.userSessions.find? (fun e => e.2.userId = userId) with
  | some e => (removeUserFromRoom s e.1).1
  | none => s

/-- `SessionManager.getUserSocketIds`: all socket ids whose session
belongs to this user. -/
def getUserSocketIds (s : SMState) (userId : String) : List String :=
  (s.userSessions.filter (fun e => e.2.userId = userId)).map (fun e => e.1)

/-- `SessionManager.cleanupInactiveUsers`: collect the stale sockets,
then remove each via `removeUserFromRoom`. -/
def cleanupInactiveUsers (s : SMState) (inactiveThresholdMs now : Int) :
    SMState :=
  let sessionsToRemove :=
    (s.userSessions.filter
      (fun e => now - e.2.lastActivity > inactiveThresholdMs)).map
        (fun e => e.1)
  sessionsToRemove.foldl (fun acc socketId => (removeUserFromRoom acc socketId).1) s

/-- One `SessionManager` call (the operations that can mutate its
state). -/
inductive SMOp where
  | join (socketId userId username roomId : String) (now : Int)
  | leave (socketId : String)
  | leaveAll (userId : String)
  | disconnect (userId : String)
  | touch (userId : String) (now : Int)
  | incCount (roomId : String)
  | typingAdd (roomId userId : String)
  | typingRemove (roomId userId : String)
  | rateCheck (socketId : String) (maxRequests : Nat) (windowMs now : Int)
  | cleanup (thresholdMs now : Int)
deriving DecidableEq

/-- Apply one `SessionManager` call. -/
def applySMOp (s : SMState) : SMOp → SMState
  | .join c u n r t => addUserToRoom s c u n r t
  | .leave c => (removeUserFromRoom s c).1
  | .leaveAll u => removeUserFromAllRooms s u
  | .disconnect u => disconnectUser s u
  | .touch u t => updateUserActivity s u t
  | .incCount r => incrementMessageCount s r
  | .typingAdd r u => addTypingUser s r u
  | .typingRemove r u => removeTypingUser s r u
  | .rateCheck c m w t => (checkRateLimit s c m w t).2
  | .cleanup th t => cleanupInactiveUsers s th t

/-- Run a call sequence from the fresh state. -/
def runSM (ops : List SMOp) : SMState :=
  ops.foldl applySMOp initSM

/-- At most one session per connection: the association list's keys
are duplicate-free (a JS `Map` guarantees this structurally). -/
def sessionKeysNodup (s : SMState) : Prop :=
  (s.userSessions.map Prod.fst).Nodup

/-- At most one active session per user: two stored sessions with the
same `userId` sit at the same connection key. -/
def atMostOneSessionPerUser (s : SMState) : Prop :=
  ∀ e1 ∈ s.userSessions, ∀ e2 ∈ s.userSessions,
    e1.2.userId = e2.2.userId → e1.1 = e2.1

/-- Internal coherence of the registry, preserved by every operation:
unique keys, unique user, `userRooms` tracks each stored session's
room, and room membership implies a matching `userRooms` entry. -/
def SMInv (s : SMState) : Prop :=
  sessionKeysNodup s
  ∧ atMostOneSessionPerUser s
  ∧ (∀ e ∈ s.userSessions, s.userRooms e.2.userId = some e.2.roomId)
  ∧ (∀ u r, u ∈ s.roomUsers r → s.userRooms u = some r)

/-- A single join establishing a session for user "u1" on socket
"c1". -/
def demoJoinOps : List SMOp := [SMOp.join "c1" "u1" "alice" "rA" 0]

/-- The session the demo join stores. -/
def demoSess : UserSession :=
  { userId := "u1", username := "alice", socketId := "c1", roomId := "rA",
    joinTime := 0, lastActivity := 0 }

/-- Follows the claim's words (not the source): a rate limiter that
retains exactly the timestamps within the closed interval
`[now - windowMs, now]`. Used only to exhibit where the code
diverges from the claim's interval. -/
def checkRateLimitClaimClosedWindow (s : SMState) (socketId : String)
    (maxRequests : Nat) (windowMs now : Int) : Bool × SMState :=
  let requests := s.rateLimitMap socketId
  let recentRequests :=
    requests.filter (fun time => now - windowMs ≤ time ∧ time ≤ now)
  if recentRequests.length ≥ maxRequests then (false, s)
  else
    (true,
      { s with
        rateLimitMap :=
          mapSet s.rateLimitMap socketId (recentRequests ++ [now]) })

/-- A registry whose socket "c" has one recorded timestamp, at 0. -/
def rlOneCallState : SMState :=
  { initSM with rateLimitMap := mapSet initSM.rateLimitMap "c" [0] }

/-- The results of a sequence of `checkRateLimit` calls on one socket
at the given times, threading the registry state. -/
def runRateCalls (s : SMState) (c : String) (maxR : Nat) (w : Int) :
    List Int → List Bool
  | [] => []
  | t :: ts =>
    let res := checkRateLimit s c maxR w t
    res.1 :: runRateCalls res.2 c maxR w ts

/-! ### AdminService and ChatGateway (admin.service.ts, chat.gateway.ts) -/

/-- The authenticated identity attached to a socket (`WsUser`). -/
structure WsUser where
  userId : String
  fullName : String
deriving DecidableEq

/-- A persisted user record (the fields the ban workflow touches). -/
structure UserRec where
  studentId : String
  fullName : String
  isActive : Bool
  isBanned : Bool
  bannedReason : Option String
  bannedAt : Option Int
  bannedBy : Option String
deriving DecidableEq

/-- Result of `AdminService.checkUserBannedStatus`. -/
structure BanStatus where
  isBanned : Bool
  bannedReason : Option String
  bannedBy : Option String
deriving DecidableEq

/-- `AdminService.checkUserBannedStatus`: `findOne({studentId})`; an
unknown user is reported not banned. -/
def checkUserBannedStatus (users : List UserRec) (userId : String) :
    BanStatus :=
  match users.find? (fun u => u.studentId = userId) with
  | none => { isBanned := false, bannedReason := none, bannedBy := none }
  | some user =>
    { isBanned := user.isBanned, bannedReason := user.bannedReason,
      bannedBy := user.bannedBy }

/-- A server-to-client or broadcast frame emitted by the gateway or
the admin workflow. -/
inductive GwEvent where
  | errorEvt (socketId message : String) (code : Option String)
  | userBannedEvt (socketId : String) (reason : Option String)
  | newMessageEvt (roomId : String) (msg : PendingMessage)
  | adminUserBannedEvt (userId : String) (reason : Option String)
      (bannedBy : String)
deriving DecidableEq

/-- State shared by the gateway handlers and the admin workflow:
session registry, message buffer (with its durable store), the user
collection, and the set of connections the server has disconnected. -/
structure GwState where
  sm : SMState
  buf : BufState
  users : List UserRec
  disconnected : List String

/-- `ChatGateway.handleMessage` (`sendMessage`): rate limit first,
then the realtime ban re-check (ban notice + force-leave +
disconnect), then session lookup, identity consistency, content
validation, and finally buffer the message, touch activity, bump the
room count, clear typing and broadcast. -/
def handleMessage (st : GwState) (clientId : String) (user : WsUser)
    (message type : String) (maxReq : Nat) (windowMs now : Int)
    (newId : String) : GwState × List GwEvent :=
  let rl := checkRateLimit st.sm clientId maxReq windowMs now
  let st1 := { st with sm := rl.2 }
  if rl.1 = false then
    (st1, [GwEvent.errorEvt clientId "Rate limit exceeded. Please slow down."
      none])
  else
    let bannedStatus := checkUserBannedStatus st.users user.userId
    if bannedStatus.isBanned then
      let st2 :=
        { st1 with
          sm := (removeUserFromRoom st1.sm clientId).1,
          disconnected := st1.disconnected ++ [clientId] }
      (st2, [GwEvent.userBannedEvt clientId bannedStatus.bannedReason])
    else
      match getUserBySocketId st1.sm clientId with
      | none =>
        (st1, [GwEvent.errorEvt clientId
          "User session not found. Please refresh and rejoin the room."
          (some "SESSION_NOT_FOUND")])
      | some userSession =>
        if ¬ (user.userId = userSession.userId) then
          (st1, [GwEvent.errorEvt clientId
            "Authentication mismatch. Please refresh and rejoin."
            (some "AUTH_MISMATCH")])
        else if message.trim = "" then
          (st1, [])
        else if message.length > 1000 then
          (st1, [GwEvent.errorEvt clientId "Message too long" none])
        else
          let created := addMessage MAX_RECENT_MESSAGES st1.buf
            userSession.roomId userSession.userId userSession.username
            (message.trim) type newId now
          let sm1 := updateUserActivity st1.sm userSession.userId now
          let sm2 := incrementMessageCount sm1 userSession.roomId
          let sm3 := removeTypingUser sm2 userSession.roomId
            userSession.userId
          ({ st1 with sm := sm3, buf := created.2 },
            [GwEvent.newMessageEvt userSession.roomId created.1])

/-- Errors `AdminService` raises. -/
inductive AdminError where
  | notFound
  | badRequest
deriving DecidableEq

/-- `AdminService.banUser`: reject if the user is unknown or already
banned; persist the ban fields; force-disconnect the user's live
session via the registry; then broadcast the moderation event and
emit a `user:banned` notice to each socket the registry still lists
for the user — the lookup runs after `disconnectUser`. -/
def banUser (st : GwState) (userId : String) (reason : Option String)
    (bannedBy : String) (now : Int) :
    Except AdminError (GwState × List GwEvent) :=
  match st.users.find? (fun u => u.studentId = userId) with
  | none => Except.error AdminError.notFound
  | some user =>
    if user.isBanned then Except.error AdminError.badRequest
    else
      let users' := updateFirst (fun u => u.studentId = userId)
        (fun u =>
          { u with
            isBanned := true,
            bannedReason := some (reason.getD "Violated community guidelines"),
            bannedAt := some now, bannedBy := some bannedBy }) st.users
      let sm' := disconnectUser st.sm userId
      let events := GwEvent.adminUserBannedEvt userId reason bannedBy ::
        (getUserSocketIds sm' userId).map
          (fun socketId => GwEvent.userBannedEvt socketId reason)
      Except.ok ({ st with users := users', sm := sm' }, events)

/-- The events a `banUser` call emits (empty on rejection). -/
def banUserEvents (st : GwState) (userId : String) (reason : Option String)
    (bannedBy : String) (now : Int) : List GwEvent :=
  match banUser st userId reason bannedBy now with
  | Except.ok res => res.2
  | Except.error _ => []

/-- Whether an admin call succeeded. -/
def adminOk (r : Except AdminError (GwState × List GwEvent)) : Bool :=
  match r with
  | Except.ok _ => true
  | Except.error _ => false

/-- A persisted chat message as addressed by
`chatMessageModel.deleteOne({ _id, roomId })`. -/
structure DbChatMessage where
  id : String
  roomId : String
deriving DecidableEq

/-- Mongo `deleteOne({_id: messageId, roomId})`: deletes the first
matching document and reports `deletedCount`. -/
def dbDeleteOne (store : List DbChatMessage) (messageId roomId : String) :
    Nat × List DbChatMessage :=
  if store.any (fun m => m.id = messageId ∧ m.roomId = roomId) then
    (1, store.eraseP (fun m => m.id = messageId ∧ m.roomId = roomId))
  else (0, store)

/-- `AdminService.deleteMessage`: delete from the buffer first, then
from the database; raise a not-found error iff neither found the
message. -/
def adminDeleteMessage (buf : BufState) (store : List DbChatMessage)
    (messageId roomId : String) :
    Except AdminError (BufState × List DbChatMessage) :=
  let bufferDeleted := bufferDeleteMessage buf messageId roomId
  let result := dbDeleteOne store messageId roomId
  if bufferDeleted.1 = false ∧ result.1 = 0 then
    Except.error AdminError.notFound
  else Except.ok (bufferDeleted.2, result.2)

/-- A user record that is currently banned. -/
def bannedRec : UserRec :=
  { studentId := "u1", fullName := "alice", isActive := true,
    isBanned := true, bannedReason := some "spam", bannedAt := some 5,
    bannedBy := some "admin" }

/-- A user record that is not banned. -/
def liveUserRec : UserRec :=
  { studentId := "u1", fullName := "alice", isActive := true,
    isBanned := false, bannedReason := none, bannedAt := none,
    bannedBy := none }

/-- Gateway state: "u1" is banned but still holds a live session. -/
def gwBanState : GwState :=
  { sm := runSM demoJoinOps, buf := initBuf, users := [bannedRec],
    disconnected := [] }

/-- Gateway state: "u1" is not banned and holds a live session. -/
def gwLiveState : GwState :=
  { sm := runSM demoJoinOps, buf := initBuf, users := [liveUserRec],
    disconnected := [] }

/-! ### takeLast lemmas -/

theorem length_takeLast (l : List α) (n : Nat) :
    (takeLast l n).length = min n l.length := by
  simp only [takeLast, List.length_drop]
  omega

theorem takeLast_of_le (l : List α) {n : Nat} (h : l.length ≤ n) :
    takeLast l n = l := by
  simp [takeLast, Nat.sub_eq_zero_of_le h]

theorem takeLast_append (a b : List α) (n : Nat) :
    takeLast (a ++ b) n = takeLast a (n - b.length) ++ takeLast b n := by
  unfold takeLast
  rw [List.length_append, List.drop_append_eq_append_drop]
  rcases Nat.le_total n b.length with h | h
  · have h1 : a.length ≤ a.length + b.length - n := by omega
    have h2 : a.length ≤ a.length - (n - b.length) := by omega
    rw [List.drop_eq_nil_of_le h1, List.drop_eq_nil_of_le h2]
    simp only [List.nil_append]
    congr 1
    omega
  · have h3 : a.length + b.length - n - a.length = 0 := by omega
    have h4 : b.length - n = 0 := by omega
    rw [h3, h4, List.drop_zero]
    have h5 : a.length + b.length - n = a.length - (n - b.length) := by omega
    rw [h5]

theorem takeLast_takeLast (l : List α) (m n : Nat) :
    takeLast (takeLast l m) n = takeLast l (min n m) := by
  unfold takeLast
  rw [List.length_drop, List.drop_drop]
  congr 1
  omega

theorem takeLast_append_takeLast (a b : List α) (n : Nat) :
    takeLast (takeLast a n ++ b) n = takeLast (a ++ b) n := by
  rw [takeLast_append, takeLast_takeLast, takeLast_append,
    Nat.min_eq_left (Nat.sub_le n b.length)]

/-! ### Recent-cache behaviour of addMessage sequences -/

theorem recent_applyAdd_same (cap : Nat) (s : BufState) (c : AddCall) :
    ((applyAdd cap s c).recentMessages c.roomId).getD []
      = takeLast (((s.recentMessages c.roomId).getD []) ++ [callMsg c]) cap := by
  simp only [applyAdd, addMessage, mapSet, if_pos, Option.getD_some, callMsg]
  split
  · rfl
  · unfold takeLast
    rw [Nat.sub_eq_zero_of_le (by omega), List.drop_zero]

theorem roomHistory_cons_same (c : AddCall) (cs : List AddCall) :
    roomHistory c.roomId (c :: cs) = callMsg c :: roomHistory c.roomId cs := by
  simp [roomHistory, List.filter_cons]

theorem roomHistory_cons_other (c : AddCall) (cs : List AddCall) (room : String)
    (h : c.roomId ≠ room) :
    roomHistory room (c :: cs) = roomHistory room cs := by
  simp [roomHistory, List.filter_cons, h]

theorem recent_applyAdd_other (cap : Nat) (s : BufState) (c : AddCall)
    (room : String) (h : room ≠ c.roomId) :
    (applyAdd cap s c).recentMessages room = s.recentMessages room := by
  unfold applyAdd addMessage
  simp [mapSet, h]

theorem recentBounded_applyAdd (cap : Nat) (s : BufState) (c : AddCall)
    (hs : recentBounded cap s) : recentBounded cap (applyAdd cap s c) := by
  intro room
  by_cases h : room = c.roomId
  · subst h
    rw [recent_applyAdd_same, length_takeLast]
    omega
  · rw [recent_applyAdd_other cap s c room h]
    exact hs room

theorem recent_addMessages (cap : Nat) (calls : List AddCall) :
    ∀ s : BufState, recentBounded cap s → ∀ room,
      ((addMessages cap s calls).recentMessages room).getD []
        = takeLast (((s.recentMessages room).getD []) ++ roomHistory room calls)
            cap := by
  induction calls with
  | nil =>
    intro s hs room
    simp only [addMessages, List.foldl_nil, roomHistory, List.filter_nil,
      List.map_nil, List.append_nil]
    exact (takeLast_of_le _ (hs room)).symm
  | cons c cs ih =>
    intro s hs room
    have hstep : addMessages cap s (c :: cs)
        = addMessages cap (applyAdd cap s c) cs := by
      simp [addMessages]
    rw [hstep, ih (applyAdd cap s c) (recentBounded_applyAdd cap s c hs) room]
    by_cases hr : room = c.roomId
    · subst hr
      rw [recent_applyAdd_same, roomHistory_cons_same, takeLast_append_takeLast]
      congr 1
      simp [List.append_assoc]
    · rw [recent_applyAdd_other cap s c room hr,
        roomHistory_cons_other c cs room (fun h => hr h.symm)]

/-- C1 (amended): for every `addMessage` sequence, every capacity and
every limit N ≥ 1, `getRecentMessages(room, N)` returns the
min(N, capacity) most recently added messages of that room,
newest-first, and the room's recent cache never exceeds the
capacity.  (For N = 0 the claim fails: JS `slice(-0)` is `slice(0)`,
so the whole cache is returned — see the counterexample.) -/
theorem getRecentMessages_spec (cap : Nat) (calls : List AddCall)
    (room : String) (N : Nat) (hN : 1 ≤ N) :
    getRecentMessages (addMessages cap initBuf calls) room N
      = (takeLast (roomHistory room calls) (min N cap)).reverse
    ∧ getRoomMessageCount (addMessages cap initBuf calls) room ≤ cap := by
  have hinit : recentBounded cap initBuf := by
    intro room
    simp [initBuf]
  have h := recent_addMessages cap calls initBuf hinit room
  have hnil : (initBuf.recentMessages room).getD [] = ([] : List PendingMessage) := rfl
  rw [hnil, List.nil_append] at h
  constructor
  · unfold getRecentMessages jsSliceLast
    rw [h, if_neg (by omega), takeLast_takeLast]
  · unfold getRoomMessageCount
    rw [h, length_takeLast]
    omega

/-- C1 witness: capacity 2, sends "hello", "world", "again" in room
"r1"; `getRecentMessages("r1", 10)` is `["again", "world"]`
(newest-first) and the cache holds at most 2 entries. -/
theorem getRecentMessages_spec_witness :
    1 ≤ 10
    ∧ getRecentMessages (addMessages 2 initBuf demoCalls) "r1" 10
        = [callMsg callAgain, callMsg callWorld]
    ∧ getRoomMessageCount (addMessages 2 initBuf demoCalls) "r1" ≤ 2 := by
  have h := getRecentMessages_spec 2 demoCalls "r1" 10 (by decide)
  exact ⟨by decide, h.1.trans (by decide), h.2⟩

/-- C1 counterexample: with a single cached message,
`getRecentMessages(room, 0)` returns that message rather than the
empty list: `slice(-0)` is `slice(0)`, so limit 0 returns the whole
cache, refuting the claim's "for every N". -/
theorem getRecentMessages_zero_counterexample :
    getRecentMessages (addMessages 2 initBuf [callHello]) "r1" 0
        = [callMsg callHello]
    ∧ getRecentMessages (addMessages 2 initBuf [callHello]) "r1" 0 ≠ [] := by
  constructor
  · decide
  · decide

/-! ### Flush behaviour (C2, C3, C8) -/

/-- A failed flush whose re-queued queue stays within the
`EMERGENCY_FLUSH_SIZE * 2` ceiling restores the state exactly: the
drained batch is `unshift`ed back at the head in its original order,
so the queue, the durable store and the caches are unchanged. -/
theorem flushToDatabase_false_of_le (batchSize : Nat) (s : BufState)
    (h : s.pendingWrites.length ≤ EMERGENCY_FLUSH_SIZE * 2) :
    flushToDatabase batchSize false s = s := by
  unfold flushToDatabase
  by_cases he : s.pendingWrites.length = 0
  · rw [if_pos he]
  · rw [if_neg he, if_neg (by decide : ¬ (false = true))]
    rw [List.take_append_drop]
    rw [if_neg (by omega)]

/-- C2: when the queue is within the bounded-drop ceiling, a failed
flush leaves the whole state unchanged (the drained batch is pushed
back at the head in its original order, so nothing is lost), and a
subsequent successful flush persists exactly the first `batchSize`
entries once, removing exactly them from the queue. -/
theorem flush_fail_then_success_spec (batchSize : Nat) (s : BufState)
    (h : s.pendingWrites.length ≤ EMERGENCY_FLUSH_SIZE * 2) :
    flushToDatabase batchSize false s = s
    ∧ (flushToDatabase batchSize true (flushToDatabase batchSize false s)).inserted
        = s.inserted ++ (s.pendingWrites.take batchSize).map toMongo
    ∧ (flushToDatabase batchSize true (flushToDatabase batchSize false s)).pendingWrites
        = s.pendingWrites.drop batchSize := by
  have h1 := flushToDatabase_false_of_le batchSize s h
  refine ⟨h1, ?_, ?_⟩ <;> rw [h1] <;> unfold flushToDatabase <;>
    by_cases he : s.pendingWrites.length = 0
  · rw [if_pos he]
    have : s.pendingWrites = [] := List.length_eq_zero.mp he
    simp [this]
  · rw [if_neg he, if_pos rfl]
  · rw [if_pos he]
    have : s.pendingWrites = [] := List.length_eq_zero.mp he
    simp [this]
  · rw [if_neg he, if_pos rfl]

/-- C2 witness: queue `[m0, m1, m2]` with batch size 2: the failed
flush restores the queue exactly; the following successful flush
persists exactly `[m0, m1]` and leaves `[m2]`. -/
theorem flush_fail_then_success_spec_witness :
    ([callMsg callHello, callMsg callWorld, callMsg callAgain] :
        List PendingMessage).length ≤ EMERGENCY_FLUSH_SIZE * 2
    ∧ (flushToDatabase 2 false (threeMsgState) = threeMsgState
    ∧ (flushToDatabase 2 true (flushToDatabase 2 false threeMsgState)).inserted
        = threeMsgState.inserted
          ++ (threeMsgState.pendingWrites.take 2).map toMongo
    ∧ (flushToDatabase 2 true (flushToDatabase 2 false threeMsgState)).pendingWrites
        = threeMsgState.pendingWrites.drop 2) :=
  ⟨by decide, flush_fail_then_success_spec 2 threeMsgState (by decide)⟩

/-- C3 (amended): after a failed flush re-queues its batch, if the
queue length exceeds `EMERGENCY_FLUSH_SIZE * 2` (2000), the splice
drops every entry but the newest `EMERGENCY_FLUSH_SIZE` (1000): the
retained suffix is cut at the 1× threshold, not at the 2× ceiling
the claim states, and nothing is persisted by the failed flush. -/
theorem flush_fail_drop_spec (batchSize : Nat) (s : BufState)
    (h : s.pendingWrites.length > EMERGENCY_FLUSH_SIZE * 2) :
    (flushToDatabase batchSize false s).pendingWrites
        = takeLast s.pendingWrites EMERGENCY_FLUSH_SIZE
    ∧ (flushToDatabase batchSize false s).pendingWrites.length
        = EMERGENCY_FLUSH_SIZE
    ∧ (flushToDatabase batchSize false s).inserted = s.inserted := by
  have he : ¬ (s.pendingWrites.length = 0) := by omega
  unfold flushToDatabase
  rw [if_neg he, if_neg (by decide : ¬ (false = true)), List.take_append_drop,
    if_pos h]
  refine ⟨by simp only [takeLast], ?_, rfl⟩
  rw [List.length_drop]
  omega

/-- C3 witness: a queue of 2001 entries (over the 2000 ceiling) is cut
back to exactly the newest 1000 entries by a failed flush. -/
theorem flush_fail_drop_spec_witness :
    bigQueueState.pendingWrites.length > EMERGENCY_FLUSH_SIZE * 2
    ∧ ((flushToDatabase 100 false bigQueueState).pendingWrites
        = takeLast bigQueueState.pendingWrites EMERGENCY_FLUSH_SIZE
    ∧ (flushToDatabase 100 false bigQueueState).pendingWrites.length
        = EMERGENCY_FLUSH_SIZE
    ∧ (flushToDatabase 100 false bigQueueState).inserted
        = bigQueueState.inserted) := by
  have hbig : bigQueueState.pendingWrites.length > EMERGENCY_FLUSH_SIZE * 2 := by
    simp [bigQueueState, EMERGENCY_FLUSH_SIZE]
  exact ⟨hbig, flush_fail_drop_spec 100 bigQueueState hbig⟩

/-- C3 counterexample: with 2001 queued entries, a failed flush leaves
1000 entries, not the 2000 the claim's "exactly the oldest excess
entries beyond the 2× ceiling are dropped" would leave. -/
theorem flush_fail_drop_counterexample :
    (flushToDatabase 100 false bigQueueState).pendingWrites.length = 1000
    ∧ (flushToDatabase 100 false bigQueueState).pendingWrites.length ≠ 2000 := by
  have hlen : bigQueueState.pendingWrites.length = 2001 := by
    simp [bigQueueState]
  have h1 : (flushToDatabase 100 false bigQueueState).pendingWrites.length
      = 1000 := by
    unfold flushToDatabase
    rw [if_neg (by rw [hlen]; decide), if_neg (by decide : ¬ (false = true)),
      List.take_append_drop, if_pos (by rw [hlen]; decide)]
    rw [List.length_drop, hlen]
    decide
  exact ⟨h1, by rw [h1]; decide⟩

/-- C8 (amended): the shutdown loop
`while (pendingWrites.length > 0) await flushToDatabase()` has no
retry limit; against a storage that fails every batch insert, a
nonempty queue within the drop ceiling is a fixed point of the loop
body, so after any number of iterations the queue is still nonempty
and the loop guard never turns false — shutdown does not terminate
for that storage behaviour. -/
theorem shutdown_flush_nonterminating (batchSize : Nat) (s : BufState)
    (n : Nat) (hne : s.pendingWrites ≠ [])
    (hle : s.pendingWrites.length ≤ EMERGENCY_FLUSH_SIZE * 2) :
    shutdownFlushAllFailing batchSize n s = s
    ∧ (shutdownFlushAllFailing batchSize n s).pendingWrites ≠ [] := by
  have hfix : ∀ m, shutdownFlushAllFailing batchSize m s = s := by
    intro m
    induction m with
    | zero => rfl
    | succ k ih =>
      show shutdownFlushAllFailing batchSize k (flushToDatabase batchSize false s) = s
      rw [flushToDatabase_false_of_le batchSize s hle]
      exact ih
  exact ⟨hfix n, by rw [hfix n]; exact hne⟩

/-- C8 witness: one pending message, five loop iterations of
all-failing flushes: the state is unchanged and the queue is still
nonempty. -/
theorem shutdown_flush_nonterminating_witness :
    oneMsgState.pendingWrites ≠ []
    ∧ oneMsgState.pendingWrites.length ≤ EMERGENCY_FLUSH_SIZE * 2
    ∧ (shutdownFlushAllFailing 100 5 oneMsgState = oneMsgState
       ∧ (shutdownFlushAllFailing 100 5 oneMsgState).pendingWrites ≠ []) :=
  ⟨by decide, by decide,
    shutdown_flush_nonterminating 100 oneMsgState 5 (by decide) (by decide)⟩

/-- C8 counterexample: with one pending message and a storage that
fails the batch insert, the shutdown loop body returns the state
unchanged while the loop guard (`pendingWrites` nonempty) still
holds, so the `while` loop makes no progress: the code has no retry
limit and does not terminate for every storage behaviour. -/
theorem shutdown_no_retry_limit_counterexample :
    flushToDatabase 100 false oneMsgState = oneMsgState
    ∧ oneMsgState.pendingWrites ≠ [] :=
  ⟨flushToDatabase_false_of_le 100 oneMsgState (by decide), by decide⟩

/-- C10: `endRoom` deletes the room's entire recent cache, silently
filters all of that room's entries out of the write queue without
persisting anything (the durable store is untouched — buffered
messages of an ended room are never flushed), and leaves every other
room's cache and queued entries unchanged. -/
theorem endRoom_clears_room_without_flush (buf : BufState)
    (rooms : List LiveRoomRec) (roomId : String) (now : Int) :
    (endRoom buf rooms roomId now).1.recentMessages roomId = none
    ∧ (∀ r, r ≠ roomId →
        (endRoom buf rooms roomId now).1.recentMessages r
          = buf.recentMessages r)
    ∧ (endRoom buf rooms roomId now).1.pendingWrites
        = buf.pendingWrites.filter (fun m => m.roomId ≠ roomId)
    ∧ (∀ m ∈ (endRoom buf rooms roomId now).1.pendingWrites,
        m.roomId ≠ roomId)
    ∧ (endRoom buf rooms roomId now).1.inserted = buf.inserted := by
  refine ⟨?_, ?_, rfl, ?_, rfl⟩
  · simp [endRoom, clearRoomMessages, mapSet]
  · intro r hr
    simp [endRoom, clearRoomMessages, mapSet, hr]
  · intro m hm
    simp only [endRoom, clearRoomMessages] at hm
    exact of_decide_eq_true (List.mem_filter.mp hm).2

/-- C10 witness: a buffer holding one "r1" and one "r2" message;
ending "r1" empties its cache, keeps only the "r2" queue entry,
leaves the "r2" cache alone and persists nothing. -/
theorem endRoom_clears_room_without_flush_witness :
    (endRoom demoBufTwoRooms [] "r1" 9).1.recentMessages "r1" = none
    ∧ ("r2" ≠ "r1"
       ∧ (endRoom demoBufTwoRooms [] "r1" 9).1.recentMessages "r2"
          = demoBufTwoRooms.recentMessages "r2")
    ∧ (endRoom demoBufTwoRooms [] "r1" 9).1.pendingWrites = [callMsg callR2]
    ∧ (endRoom demoBufTwoRooms [] "r1" 9).1.inserted = [] := by
  have h := endRoom_clears_room_without_flush demoBufTwoRooms [] "r1" 9
  exact ⟨h.1, ⟨by decide, h.2.1 "r2" (by decide)⟩,
    h.2.2.1.trans (by decide), h.2.2.2.2.trans (by decide)⟩

/-! ### Association-list lemmas -/

theorem eq_of_same_key {β : Type} {m : List (String × β)}
    (h : (m.map Prod.fst).Nodup) :
    ∀ {a b : String × β}, a ∈ m → b ∈ m → a.1 = b.1 → a = b := by
  induction m with
  | nil => intro a b ha _ _; cases ha
  | cons x xs ih =>
    intro a b ha hb hk
    rw [List.map_cons, List.nodup_cons] at h
    rcases List.mem_cons.mp ha with rfl | ha'
    · rcases List.mem_cons.mp hb with rfl | hb'
      · rfl
      · exact absurd (by rw [hk]; exact List.mem_map_of_mem Prod.fst hb') h.1
    · rcases List.mem_cons.mp hb with rfl | hb'
      · exact absurd (by rw [← hk]; exact List.mem_map_of_mem Prod.fst ha') h.1
      · exact ih h.2 ha' hb' hk

theorem eraseP_no_match {α : Type} {p : α → Bool} :
    ∀ {l : List α}, l.Nodup →
      (∀ a ∈ l, ∀ b ∈ l, p a = true → p b = true → a = b) →
      ∀ e ∈ l.eraseP p, ¬ (p e = true) := by
  intro l
  induction l with
  | nil => intro _ _ e he; simp at he
  | cons x xs ih =>
    intro hnd huniq e he hpe
    rw [List.eraseP_cons] at he
    cases hpx : p x with
    | true =>
      rw [hpx, cond_true] at he
      have hex : e = x :=
        huniq e (List.mem_cons_of_mem x he) x (List.mem_cons_self x xs) hpe hpx
      rw [List.nodup_cons] at hnd
      exact hnd.1 (hex ▸ he)
    | false =>
      rw [hpx, cond_false] at he
      rcases List.mem_cons.mp he with rfl | he'
      · rw [hpe] at hpx
        cases hpx
      · rw [List.nodup_cons] at hnd
        exact ih hnd.2
          (fun a ha b hb => huniq a (List.mem_cons_of_mem x ha) b
            (List.mem_cons_of_mem x hb)) e he' hpe

theorem jsGet_eq_none_iff {β : Type} (m : List (String × β)) (k : String) :
    jsGet m k = none ↔ ∀ e ∈ m, ¬ (e.1 = k) := by
  unfold jsGet
  rw [Option.map_eq_none', List.find?_eq_none]
  simp

theorem jsGet_eq_some_iff {β : Type} :
    ∀ {m : List (String × β)}, (m.map Prod.fst).Nodup → ∀ {k : String} {v : β},
      (jsGet m k = some v ↔ (k, v) ∈ m) := by
  intro m
  induction m with
  | nil =>
    intro _ k v
    simp [jsGet]
  | cons x xs ih =>
    intro hnd k v
    rw [List.map_cons, List.nodup_cons] at hnd
    unfold jsGet
    by_cases hx : x.1 = k
    · rw [List.find?_cons, decide_eq_true hx]
      change some x.2 = some v ↔ (k, v) ∈ x :: xs
      simp only [Option.some.injEq, List.mem_cons]
      constructor
      · intro h
        left
        apply Prod.ext
        · exact hx.symm
        · exact h.symm
      · rintro (h | h)
        · rw [← h]
        · exact absurd (by rw [hx]; exact List.mem_map_of_mem Prod.fst h) hnd.1
    · rw [List.find?_cons, decide_eq_false hx]
      change jsGet xs k = some v ↔ (k, v) ∈ x :: xs
      rw [ih hnd.2, List.mem_cons]
      constructor
      · intro h
        right
        exact h
      · rintro (h | h)
        · exact absurd (by rw [← h]) hx
        · exact h

theorem jsSet_cons_ne {β : Type} (x : String × β) (xs : List (String × β))
    (k : String) (v : β) (h : ¬ (x.1 = k)) :
    jsSet (x :: xs) k v = x :: jsSet xs k v := by
  unfold jsSet
  rw [List.any_cons, decide_eq_false h, Bool.false_or]
  by_cases hxs : xs.any (fun e => e.1 = k) = true
  · rw [if_pos hxs, if_pos hxs, List.map_cons, if_neg h]
  · rw [if_neg hxs, if_neg hxs, List.cons_append]

theorem jsSet_cons_eq {β : Type} (x : String × β) (xs : List (String × β))
    (k : String) (v : β) (h : x.1 = k) :
    jsSet (x :: xs) k v
      = (k, v) :: xs.map (fun e => if e.1 = k then (k, v) else e) := by
  unfold jsSet
  rw [List.any_cons, decide_eq_true h, Bool.true_or, if_pos rfl,
    List.map_cons, if_pos h]

theorem find?_key_map_replace {β : Type} (xs : List (String × β))
    (k : String) (v : β) (q : String) (hq : ¬ (q = k)) :
    ((xs.map (fun e => if e.1 = k then (k, v) else e)).find?
        (fun e => e.1 = q))
      = xs.find? (fun e => e.1 = q) := by
  induction xs with
  | nil => rfl
  | cons x xs ih =>
    rw [List.map_cons]
    by_cases hx : x.1 = k
    · rw [if_pos hx, List.find?_cons, List.find?_cons,
        decide_eq_false (fun h => hq (h.symm.trans rfl) : ¬ ((k, v).1 = q)),
        decide_eq_false (fun h => hq ((hx.symm.trans h).symm) : ¬ (x.1 = q))]
      exact ih
    · rw [if_neg hx, List.find?_cons, List.find?_cons]
      by_cases hxq : x.1 = q
      · rw [decide_eq_true hxq]
      · rw [decide_eq_false hxq]
        exact ih

theorem jsGet_jsSet {β : Type} (m : List (String × β)) (k : String) (v : β)
    (q : String) :
    jsGet (jsSet m k v) q = if q = k then some v else jsGet m q := by
  induction m with
  | nil =>
    have hnil : jsSet ([] : List (String × β)) k v = [(k, v)] := rfl
    rw [hnil]
    by_cases h : q = k
    · subst h
      simp [jsGet, List.find?_cons]
    · have h' : ¬ (k = q) := fun hh => h hh.symm
      simp [jsGet, List.find?_cons, decide_eq_false h', if_neg h]
  | cons x xs ih =>
    by_cases hx : x.1 = k
    · rw [jsSet_cons_eq x xs k v hx]
      by_cases h : q = k
      · subst h
        simp [jsGet, List.find?_cons]
      · have h' : ¬ (k = q) := fun hh => h hh.symm
        have hxq : ¬ (x.1 = q) := fun hh => h' (hx ▸ hh)
        simp only [jsGet, List.find?_cons, decide_eq_false h', if_neg h]
        rw [find?_key_map_replace xs k v q h]
        simp [jsGet, List.find?_cons, decide_eq_false hxq]
    · rw [jsSet_cons_ne x xs k v hx]
      by_cases hxq : x.1 = q
      · have hqk : ¬ (q = k) := fun hh => hx (hxq.trans hh)
        simp [jsGet, List.find?_cons, decide_eq_true hxq, hqk]
      · simp only [jsGet, List.find?_cons, decide_eq_false hxq]
        exact ih

theorem mem_jsSet_iff {β : Type} (m : List (String × β)) (k : String) (v : β)
    (e : String × β) :
    e ∈ jsSet m k v ↔ e = (k, v) ∨ (e ∈ m ∧ ¬ (e.1 = k)) := by
  unfold jsSet
  by_cases h : m.any (fun e => e.1 = k) = true
  · rw [if_pos h]
    rw [List.mem_map]
    constructor
    · rintro ⟨a, ha, rfl⟩
      by_cases hk : a.1 = k
      · rw [if_pos hk]
        left
        rfl
      · rw [if_neg hk]
        right
        exact ⟨ha, hk⟩
    · rintro (rfl | ⟨hem, hk⟩)
      · obtain ⟨a, ha, hak⟩ := List.any_eq_true.mp h
        exact ⟨a, ha, by rw [if_pos (of_decide_eq_true hak)]⟩
      · exact ⟨e, hem, by rw [if_neg hk]⟩
  · rw [if_neg h]
    rw [List.mem_append, List.mem_singleton]
    constructor
    · rintro (hem | rfl)
      · right
        refine ⟨hem, fun hk => h ?_⟩
        exact List.any_eq_true.mpr ⟨e, hem, decide_eq_true hk⟩
      · left
        rfl
    · rintro (rfl | ⟨hem, _⟩)
      · right
        rfl
      · left
        exact hem

theorem keys_nodup_jsSet {β : Type} {m : List (String × β)} (k : String)
    (v : β) (h : (m.map Prod.fst).Nodup) :
    ((jsSet m k v).map Prod.fst).Nodup := by
  unfold jsSet
  by_cases hc : m.any (fun e => e.1 = k) = true
  · rw [if_pos hc]
    have hkeys : (m.map (fun e => if e.1 = k then (k, v) else e)).map Prod.fst
        = m.map Prod.fst := by
      rw [List.map_map]
      refine List.map_congr_left ?_
      intro a _
      by_cases hk : a.1 = k
      · rw [Function.comp_apply, if_pos hk]
        exact hk.symm
      · rw [Function.comp_apply, if_neg hk]
    rw [hkeys]
    exact h
  · rw [if_neg hc, List.map_append]
    refine List.Nodup.append h (List.nodup_singleton k) ?_
    intro a ha hb
    rw [List.map_singleton, List.mem_singleton] at hb
    subst hb
    obtain ⟨e, he, hek⟩ := List.mem_map.mp ha
    exact hc (List.any_eq_true.mpr ⟨e, he, decide_eq_true hek⟩)

theorem map_proj_updateFirst {α γ : Type} (p : α → Bool) (f : α → α)
    (g : α → γ) (hf : ∀ a, g (f a) = g a) :
    ∀ l : List α, (updateFirst p f l).map g = l.map g := by
  intro l
  induction l with
  | nil => rfl
  | cons x xs ih =>
    unfold updateFirst
    by_cases hx : p x = true
    · rw [if_pos hx, List.map_cons, List.map_cons, hf]
    · rw [if_neg hx, List.map_cons, List.map_cons, ih]

theorem mem_updateFirst {α : Type} (p : α → Bool) (f : α → α) :
    ∀ (l : List α) (e : α), e ∈ updateFirst p f l →
      ∃ a ∈ l, e = a ∨ e = f a := by
  intro l
  induction l with
  | nil =>
    intro e he
    cases he
  | cons x xs ih =>
    intro e he
    unfold updateFirst at he
    by_cases hx : p x = true
    · rw [if_pos hx] at he
      rcases List.mem_cons.mp he with rfl | he'
      · exact ⟨x, List.mem_cons_self x xs, Or.inr rfl⟩
      · exact ⟨e, List.mem_cons_of_mem x he', Or.inl rfl⟩
    · rw [if_neg hx] at he
      rcases List.mem_cons.mp he with rfl | he'
      · exact ⟨e, List.mem_cons_self e xs, Or.inl rfl⟩
      · obtain ⟨a, ha, hor⟩ := ih e he'
        exact ⟨a, List.mem_cons_of_mem x ha, hor⟩

theorem mem_setAdd_iff (l : List String) (u x : String) :
    x ∈ setAdd l u ↔ x = u ∨ x ∈ l := by
  unfold setAdd
  by_cases h : u ∈ l
  · rw [if_pos h]
    constructor
    · exact Or.inr
    · rintro (rfl | hx)
      · exact h
      · exact hx
  · rw [if_neg h, List.mem_append, List.mem_singleton]
    constructor
    · rintro (hx | rfl)
      · exact Or.inr hx
      · exact Or.inl rfl
    · rintro (rfl | hx)
      · exact Or.inr rfl
      · exact Or.inl hx

theorem mem_setDelete_iff (l : List String) (u x : String) :
    x ∈ setDelete l u ↔ x ∈ l ∧ ¬ (x = u) := by
  unfold setDelete
  rw [List.mem_filter]
  simp

/-! ### SessionManager projection lemmas -/

theorem removeAll_userSessions (s : SMState) (u : String) :
    (removeUserFromAllRooms s u).userSessions
      = s.userSessions.eraseP (fun e => e.2.userId = u) := by
  unfold removeUserFromAllRooms
  cases s.userRooms u <;> rfl

theorem removeAll_userRooms (s : SMState) (u x : String) :
    (removeUserFromAllRooms s u).userRooms x
      = if x = u then none else s.userRooms x := by
  unfold removeUserFromAllRooms
  cases s.userRooms u <;> rfl

theorem removeAll_roomUsers_none (s : SMState) (u : String)
    (h : s.userRooms u = none) (r : String) :
    (removeUserFromAllRooms s u).roomUsers r = s.roomUsers r := by
  unfold removeUserFromAllRooms
  rw [h]

theorem removeAll_roomUsers_some (s : SMState) (u rm : String)
    (h : s.userRooms u = some rm) (r : String) :
    (removeUserFromAllRooms s u).roomUsers r
      = if r = rm then setDelete (s.roomUsers rm) u else s.roomUsers r := by
  unfold removeUserFromAllRooms
  rw [h]
  by_cases hr : r = rm
  · rw [if_pos hr]
    show mapSet s.roomUsers rm (setDelete (s.roomUsers rm) u) r = _
    rw [mapSet, if_pos hr]
  · rw [if_neg hr]
    show mapSet s.roomUsers rm (setDelete (s.roomUsers rm) u) r = _
    rw [mapSet, if_neg hr]

theorem removeAll_typing_none (s : SMState) (u : String)
    (h : s.userRooms u = none) (r : String) :
    (removeUserFromAllRooms s u).typingUsers r = s.typingUsers r := by
  unfold removeUserFromAllRooms
  rw [h]

theorem removeAll_typing_some (s : SMState) (u rm : String)
    (h : s.userRooms u = some rm) (r : String) :
    (removeUserFromAllRooms s u).typingUsers r
      = if r = rm then setDelete (s.typingUsers rm) u else s.typingUsers r := by
  unfold removeUserFromAllRooms
  rw [h]
  by_cases hr : r = rm
  · rw [if_pos hr]
    show mapSet s.typingUsers rm (setDelete (s.typingUsers rm) u) r = _
    rw [mapSet, if_pos hr]
  · rw [if_neg hr]
    show mapSet s.typingUsers rm (setDelete (s.typingUsers rm) u) r = _
    rw [mapSet, if_neg hr]

/-- Sessions of the evicted user never survive
`removeUserFromAllRooms` (under the registry invariant). -/
theorem removeAll_no_user_session (s : SMState) (u : String)
    (h1 : sessionKeysNodup s) (h2 : atMostOneSessionPerUser s) :
    ∀ e ∈ (removeUserFromAllRooms s u).userSessions, ¬ (e.2.userId = u) := by
  intro e he
  rw [removeAll_userSessions] at he
  have hno := eraseP_no_match (h1.of_map Prod.fst)
    (fun a ha b hb hpa hpb =>
      eq_of_same_key h1 ha hb
        (h2 a ha b hb ((of_decide_eq_true hpa).trans
          (of_decide_eq_true hpb).symm)))
    e he
  exact fun hh => hno (decide_eq_true hh)

theorem SMInv_removeUserFromAllRooms (s : SMState) (u : String) (h : SMInv s) :
    SMInv (removeUserFromAllRooms s u) := by
  obtain ⟨h1, h2, h3, h4⟩ := h
  have hsub : List.Sublist
      (s.userSessions.eraseP (fun e => e.2.userId = u)) s.userSessions :=
    List.eraseP_sublist s.userSessions
  refine ⟨?_, ?_, ?_, ?_⟩
  · show ((removeUserFromAllRooms s u).userSessions.map Prod.fst).Nodup
    rw [removeAll_userSessions]
    exact h1.sublist (hsub.map Prod.fst)
  · intro e1 he1 e2 he2 huid
    rw [removeAll_userSessions] at he1 he2
    exact h2 e1 (hsub.subset he1) e2 (hsub.subset he2) huid
  · intro e he
    have huid := removeAll_no_user_session s u h1 h2 e he
    rw [removeAll_userSessions] at he
    rw [removeAll_userRooms, if_neg huid]
    exact h3 e (hsub.subset he)
  · intro u' r hur
    rw [removeAll_userRooms]
    cases hu : s.userRooms u with
    | none =>
      rw [removeAll_roomUsers_none s u hu] at hur
      have hold := h4 u' r hur
      by_cases h' : u' = u
      · subst h'
        rw [hu] at hold
        exact Option.noConfusion hold
      · rw [if_neg h']
        exact hold
    | some rm =>
      rw [removeAll_roomUsers_some s u rm hu] at hur
      by_cases hr : r = rm
      · subst hr
        rw [if_pos rfl] at hur
        rw [mem_setDelete_iff] at hur
        obtain ⟨hmem, hne⟩ := hur
        rw [if_neg hne]
        exact h4 u' r hmem
      · rw [if_neg hr] at hur
        have hold := h4 u' r hur
        by_cases h' : u' = u
        · subst h'
          rw [hu] at hold
          exact absurd (Option.some.inj hold).symm hr
        · rw [if_neg h']
          exact hold

theorem addUser_userSessions (s : SMState) (c u n r : String) (t : Int) :
    (addUserToRoom s c u n r t).userSessions
      = jsSet (removeUserFromAllRooms s u).userSessions c
          { userId := u, username := n, socketId := c, roomId := r,
            joinTime := t, lastActivity := t } := rfl

theorem addUser_userRooms (s : SMState) (c u n r : String) (t : Int)
    (x : String) :
    (addUserToRoom s c u n r t).userRooms x
      = if x = u then some r else (removeUserFromAllRooms s u).userRooms x :=
  rfl

theorem addUser_roomUsers (s : SMState) (c u n r : String) (t : Int)
    (r' : String) :
    (addUserToRoom s c u n r t).roomUsers r'
      = if r' = r then setAdd ((removeUserFromAllRooms s u).roomUsers r) u
        else (removeUserFromAllRooms s u).roomUsers r' := rfl

theorem addUser_typing (s : SMState) (c u n r : String) (t : Int)
    (r' : String) :
    (addUserToRoom s c u n r t).typingUsers r'
      = (removeUserFromAllRooms s u).typingUsers r' := rfl

theorem removeAll_userRooms_self (s : SMState) (u : String) :
    (removeUserFromAllRooms s u).userRooms u = none := by
  rw [removeAll_userRooms, if_pos rfl]

theorem removeAll_not_in_roomUsers (s : SMState) (u : String) (h : SMInv s) :
    ∀ r, u ∉ (removeUserFromAllRooms s u).roomUsers r := by
  intro r hmem
  have hmid := SMInv_removeUserFromAllRooms s u h
  have hu := hmid.2.2.2 u r hmem
  rw [removeAll_userRooms_self] at hu
  exact Option.noConfusion hu

theorem SMInv_addUserToRoom (s : SMState) (c u n r : String) (t : Int)
    (h : SMInv s) : SMInv (addUserToRoom s c u n r t) := by
  have hmid := SMInv_removeUserFromAllRooms s u h
  obtain ⟨m1, m2, m3, m4⟩ := hmid
  have hnou := removeAll_no_user_session s u h.1 h.2.1
  have hnomem := removeAll_not_in_roomUsers s u h
  refine ⟨?_, ?_, ?_, ?_⟩
  · show ((addUserToRoom s c u n r t).userSessions.map Prod.fst).Nodup
    rw [addUser_userSessions]
    exact keys_nodup_jsSet c _ m1
  · intro e1 he1 e2 he2 huid
    rw [addUser_userSessions] at he1 he2
    rcases (mem_jsSet_iff _ _ _ e1).mp he1 with rfl | ⟨hm1, hk1⟩ <;>
      rcases (mem_jsSet_iff _ _ _ e2).mp he2 with rfl | ⟨hm2, hk2⟩
    · rfl
    · exact absurd (huid.symm.trans rfl) (hnou e2 hm2)
    · exact absurd (huid.trans rfl) (hnou e1 hm1)
    · exact m2 e1 hm1 e2 hm2 huid
  · intro e he
    rw [addUser_userSessions] at he
    rcases (mem_jsSet_iff _ _ _ e).mp he with rfl | ⟨hm, hk⟩
    · rw [addUser_userRooms, if_pos rfl]
    · have hne := hnou e hm
      rw [addUser_userRooms, if_neg hne]
      exact m3 e hm
  · intro u' r' hur
    rw [addUser_roomUsers] at hur
    by_cases hr : r' = r
    · rw [if_pos hr] at hur
      rcases (mem_setAdd_iff _ _ _).mp hur with rfl | hmem
      · rw [addUser_userRooms, if_pos rfl, hr]
      · have hne : ¬ (u' = u) := fun hh => hnomem r (hh ▸ hmem)
        rw [addUser_userRooms, if_neg hne, hr]
        exact m4 u' r hmem
    · rw [if_neg hr] at hur
      have hne : ¬ (u' = u) := fun hh => hnomem r' (hh ▸ hur)
      rw [addUser_userRooms, if_neg hne]
      exact m4 u' r' hur

theorem mapSet_apply {α : Type} (m : String → α) (k : String) (v : α)
    (x : String) : mapSet m k v x = if x = k then v else m x := rfl

theorem removeRoom_none (s : SMState) (c : String)
    (h : jsGet s.userSessions c = none) :
    removeUserFromRoom s c = (s, none) := by
  unfold removeUserFromRoom
  rw [h]

theorem removeRoom_some (s : SMState) (c : String) (sess : UserSession)
    (h : jsGet s.userSessions c = some sess) :
    removeUserFromRoom s c
      = ({ s with
            userSessions := jsDelete s.userSessions c,
            userRooms := mapSet s.userRooms sess.userId none,
            roomUsers :=
              mapSet s.roomUsers sess.roomId
                (setDelete (s.roomUsers sess.roomId) sess.userId),
            typingUsers :=
              mapSet s.typingUsers sess.roomId
                (setDelete (s.typingUsers sess.roomId) sess.userId) },
         some sess) := by
  unfold removeUserFromRoom
  rw [h]

/-- After `jsDelete` by a key, no surviving entry carries that key. -/
theorem jsDelete_no_key {β : Type} {m : List (String × β)}
    (h : (m.map Prod.fst).Nodup) (k : String) :
    ∀ e ∈ jsDelete m k, ¬ (e.1 = k) := by
  intro e he
  have hno := eraseP_no_match (h.of_map Prod.fst)
    (fun a ha b hb hpa hpb =>
      eq_of_same_key h ha hb
        ((of_decide_eq_true hpa).trans (of_decide_eq_true hpb).symm))
    e he
  exact fun hh => hno (decide_eq_true hh)

theorem SMInv_removeUserFromRoom (s : SMState) (c : String) (h : SMInv s) :
    SMInv (removeUserFromRoom s c).1 := by
  obtain ⟨h1, h2, h3, h4⟩ := h
  cases hg : jsGet s.userSessions c with
  | none =>
    rw [removeRoom_none s c hg]
    exact ⟨h1, h2, h3, h4⟩
  | some sess =>
    have hmem : (c, sess) ∈ s.userSessions := (jsGet_eq_some_iff h1).mp hg
    rw [removeRoom_some s c sess hg]
    have hsub : List.Sublist (jsDelete s.userSessions c) s.userSessions :=
      List.eraseP_sublist s.userSessions
    have hkeyne := jsDelete_no_key h1 c
    refine ⟨?_, ?_, ?_, ?_⟩
    · show ((jsDelete s.userSessions c).map Prod.fst).Nodup
      exact h1.sublist (hsub.map Prod.fst)
    · intro e1 he1 e2 he2 huid
      exact h2 e1 (hsub.subset he1) e2 (hsub.subset he2) huid
    · intro e he
      have hene : ¬ (e.2.userId = sess.userId) := fun hh =>
        hkeyne e he (h2 e (hsub.subset he) (c, sess) hmem hh)
      show mapSet s.userRooms sess.userId none e.2.userId = some e.2.roomId
      rw [mapSet_apply, if_neg hene]
      exact h3 e (hsub.subset he)
    · intro u' r' hur
      have hur' : u' ∈ mapSet s.roomUsers sess.roomId
          (setDelete (s.roomUsers sess.roomId) sess.userId) r' := hur
      clear hur
      rename' hur' => hur
      show mapSet s.userRooms sess.userId none u' = some r'
      rw [mapSet_apply] at hur ⊢
      by_cases hr : r' = sess.roomId
      · rw [if_pos hr, mem_setDelete_iff] at hur
        obtain ⟨hmemu, hne⟩ := hur
        rw [if_neg hne, hr]
        exact h4 u' sess.roomId hmemu
      · rw [if_neg hr] at hur
        have hold := h4 u' r' hur
        have hne : ¬ (u' = sess.userId) := by
          intro hh
          rw [hh] at hold
          rw [h3 (c, sess) hmem] at hold
          exact hr (Option.some.inj hold).symm
        rw [if_neg hne]
        exact hold

theorem SMInv_updateUserActivity (s : SMState) (u : String) (t : Int)
    (h : SMInv s) : SMInv (updateUserActivity s u t) := by
  obtain ⟨h1, h2, h3, h4⟩ := h
  refine ⟨?_, ?_, ?_, h4⟩
  · show ((updateFirst (fun e => e.2.userId = u)
      (fun e => (e.1, { e.2 with lastActivity := t }))
      s.userSessions).map Prod.fst).Nodup
    rw [map_proj_updateFirst (fun e => e.2.userId = u)
      (fun e => (e.1, { e.2 with lastActivity := t })) Prod.fst
      (fun a => rfl) s.userSessions]
    exact h1
  · intro e1 he1 e2 he2 huid
    obtain ⟨a1, ha1, hor1⟩ := mem_updateFirst _ _ _ e1 he1
    obtain ⟨a2, ha2, hor2⟩ := mem_updateFirst _ _ _ e2 he2
    have k1 : e1.1 = a1.1 ∧ e1.2.userId = a1.2.userId := by
      rcases hor1 with rfl | rfl <;> exact ⟨rfl, rfl⟩
    have k2 : e2.1 = a2.1 ∧ e2.2.userId = a2.2.userId := by
      rcases hor2 with rfl | rfl <;> exact ⟨rfl, rfl⟩
    rw [k1.1, k2.1]
    exact h2 a1 ha1 a2 ha2 (by rw [← k1.2, ← k2.2]; exact huid)
  · intro e he
    obtain ⟨a, ha, hor⟩ := mem_updateFirst _ _ _ e he
    have k : e.2.userId = a.2.userId ∧ e.2.roomId = a.2.roomId := by
      rcases hor with rfl | rfl <;> exact ⟨rfl, rfl⟩
    show s.userRooms e.2.userId = some e.2.roomId
    rw [k.1, k.2]
    exact h3 a ha

theorem SMInv_disconnectUser (s : SMState) (u : String) (h : SMInv s) :
    SMInv (disconnectUser s u) := by
  unfold disconnectUser
  cases s.userSessions.find? (fun e => e.2.userId = u) with
  | none => exact h
  | some e => exact SMInv_removeUserFromRoom s e.1 h

theorem SMInv_checkRateLimit (s : SMState) (c : String) (m : Nat)
    (w t : Int) (h : SMInv s) : SMInv (checkRateLimit s c m w t).2 := by
  unfold checkRateLimit
  dsimp only
  split
  · exact h
  · exact h

theorem SMInv_foldl_removeRoom (l : List String) :
    ∀ s : SMState, SMInv s →
      SMInv (l.foldl (fun acc socketId => (removeUserFromRoom acc socketId).1) s) := by
  induction l with
  | nil => intro s h; exact h
  | cons x xs ih =>
    intro s h
    exact ih _ (SMInv_removeUserFromRoom s x h)

theorem SMInv_cleanupInactiveUsers (s : SMState) (th t : Int) (h : SMInv s) :
    SMInv (cleanupInactiveUsers s th t) :=
  SMInv_foldl_removeRoom _ s h

theorem SMInv_applySMOp (s : SMState) (op : SMOp) (h : SMInv s) :
    SMInv (applySMOp s op) := by
  cases op with
  | join c u n r t => exact SMInv_addUserToRoom s c u n r t h
  | leave c => exact SMInv_removeUserFromRoom s c h
  | leaveAll u => exact SMInv_removeUserFromAllRooms s u h
  | disconnect u => exact SMInv_disconnectUser s u h
  | touch u t => exact SMInv_updateUserActivity s u t h
  | incCount r => exact h
  | typingAdd r u => exact h
  | typingRemove r u => exact h
  | rateCheck c m w t => exact SMInv_checkRateLimit s c m w t h
  | cleanup th t => exact SMInv_cleanupInactiveUsers s th t h

theorem SMInv_initSM : SMInv initSM := by
  refine ⟨?_, ?_, ?_, ?_⟩
  · show (([] : List (String × UserSession)).map Prod.fst).Nodup
    simp
  · intro e1 he1
    cases he1
  · intro e he
    cases he
  · intro u r hur
    cases hur

theorem SMInv_runSM (ops : List SMOp) : SMInv (runSM ops) := by
  have hfold : ∀ (l : List SMOp) (s : SMState), SMInv s →
      SMInv (l.foldl applySMOp s) := by
    intro l
    induction l with
    | nil => intro s h; exact h
    | cons x xs ih =>
      intro s h
      exact ih _ (SMInv_applySMOp s x h)
  exact hfold ops initSM SMInv_initSM

/-- Evicting user `u` removes the connection that held `u`'s session. -/
theorem removeAll_evicts_connection (s : SMState) (h : SMInv s)
    (c1 u : String) (sess : UserSession)
    (hg : jsGet s.userSessions c1 = some sess) (huid : sess.userId = u) :
    jsGet (removeUserFromAllRooms s u).userSessions c1 = none := by
  have hmem : (c1, sess) ∈ s.userSessions := (jsGet_eq_some_iff h.1).mp hg
  rw [jsGet_eq_none_iff]
  intro e he hke
  have hesub : e ∈ s.userSessions := by
    rw [removeAll_userSessions] at he
    exact (List.eraseP_sublist s.userSessions).subset he
  have hne := removeAll_no_user_session s u h.1 h.2.1 e he
  have heq : e = (c1, sess) := eq_of_same_key h.1 hesub hmem hke
  exact hne (by rw [heq]; exact huid)

/-- Evicting user `u` clears `u`'s typing entry in the room of the
session being evicted. -/
theorem removeAll_clears_typing (s : SMState) (h : SMInv s)
    (c1 u : String) (sess : UserSession)
    (hg : jsGet s.userSessions c1 = some sess) (huid : sess.userId = u) :
    u ∉ (removeUserFromAllRooms s u).typingUsers sess.roomId := by
  intro hmem'
  have hmem : (c1, sess) ∈ s.userSessions := (jsGet_eq_some_iff h.1).mp hg
  have hur : s.userRooms u = some sess.roomId := by
    rw [← huid]
    exact h.2.2.1 (c1, sess) hmem
  rw [removeAll_typing_some s u sess.roomId hur, if_pos rfl,
    mem_setDelete_iff] at hmem'
  exact hmem'.2 rfl

/-- The full eviction behaviour of a second-connection join, over any
state satisfying the registry invariant. -/
theorem addUser_eviction (s : SMState) (h : SMInv s)
    (c1 c2 u username r2 : String) (t : Int) (sess : UserSession)
    (hg : jsGet s.userSessions c1 = some sess) (huid : sess.userId = u)
    (hne : ¬ (c1 = c2)) :
    (jsGet (removeUserFromAllRooms s u).userSessions c1 = none
      ∧ (∀ r, u ∉ (removeUserFromAllRooms s u).roomUsers r)
      ∧ u ∉ (removeUserFromAllRooms s u).typingUsers sess.roomId)
    ∧ (jsGet (addUserToRoom s c2 u username r2 t).userSessions c1 = none
      ∧ (∀ r, u ∈ (addUserToRoom s c2 u username r2 t).roomUsers r ↔ r = r2)
      ∧ u ∉ (addUserToRoom s c2 u username r2 t).typingUsers sess.roomId
      ∧ jsGet (addUserToRoom s c2 u username r2 t).userSessions c2
          = some { userId := u, username := username, socketId := c2,
                   roomId := r2, joinTime := t, lastActivity := t }) := by
  have hmid1 := removeAll_evicts_connection s h c1 u sess hg huid
  have hmid2 := removeAll_not_in_roomUsers s u h
  have hmid3 := removeAll_clears_typing s h c1 u sess hg huid
  refine ⟨⟨hmid1, hmid2, hmid3⟩, ?_, ?_, ?_, ?_⟩
  · rw [addUser_userSessions, jsGet_jsSet, if_neg hne]
    exact hmid1
  · intro r
    rw [addUser_roomUsers]
    by_cases hr : r = r2
    · rw [if_pos hr, mem_setAdd_iff]
      constructor
      · intro _
        exact hr
      · intro _
        exact Or.inl rfl
    · rw [if_neg hr]
      constructor
      · intro hmem
        exact absurd hmem (hmid2 r)
      · intro hh
        exact absurd hh hr
  · rw [addUser_typing]
    exact hmid3
  · rw [addUser_userSessions, jsGet_jsSet, if_pos rfl]

/-- C5: from the empty registry, every operation sequence maintains at
most one session per connection (the socket-keyed map has
duplicate-free keys) and at most one active session per user; and in
every reachable state, a join for user `u` from a second connection
`c2` first fully evicts the first connection's session, `u`'s room
membership and `u`'s typing entry (all already gone in the
intermediate `removeUserFromAllRooms` state), and only then registers
the new session under `c2`. -/
theorem session_registry_unique_and_eviction :
    (∀ ops : List SMOp,
      sessionKeysNodup (runSM ops) ∧ atMostOneSessionPerUser (runSM ops))
    ∧ (∀ (ops : List SMOp) (c1 c2 u username r2 : String) (t : Int)
        (sess : UserSession),
        jsGet (runSM ops).userSessions c1 = some sess →
        sess.userId = u →
        ¬ (c1 = c2) →
        (jsGet (removeUserFromAllRooms (runSM ops) u).userSessions c1 = none
          ∧ (∀ r, u ∉ (removeUserFromAllRooms (runSM ops) u).roomUsers r)
          ∧ u ∉ (removeUserFromAllRooms (runSM ops) u).typingUsers sess.roomId)
        ∧ (jsGet (addUserToRoom (runSM ops) c2 u username r2 t).userSessions c1
              = none
          ∧ (∀ r, u ∈ (addUserToRoom (runSM ops) c2 u username r2 t).roomUsers r
              ↔ r = r2)
          ∧ u ∉ (addUserToRoom (runSM ops) c2 u username r2 t).typingUsers
              sess.roomId
          ∧ jsGet (addUserToRoom (runSM ops) c2 u username r2 t).userSessions c2
              = some { userId := u, username := username, socketId := c2,
                       roomId := r2, joinTime := t, lastActivity := t })) := by
  constructor
  · intro ops
    have h := SMInv_runSM ops
    exact ⟨h.1, h.2.1⟩
  · intro ops c1 c2 u username r2 t sess hg huid hne
    exact addUser_eviction (runSM ops) (SMInv_runSM ops) c1 c2 u username r2 t
      sess hg huid hne

/-- C5 witness: after joining "u1" on socket "c1", a join for the same
user from socket "c2" leaves no session under "c1", places "u1" in
the new room, and registers the new session under "c2"; the socket
keys of the reached state are duplicate-free. -/
theorem session_registry_unique_and_eviction_witness :
    jsGet (runSM demoJoinOps).userSessions "c1" = some demoSess
    ∧ demoSess.userId = "u1"
    ∧ ¬ ("c1" = "c2")
    ∧ sessionKeysNodup (runSM demoJoinOps)
    ∧ jsGet (addUserToRoom (runSM demoJoinOps) "c2" "u1" "alice" "rB" 1).userSessions
        "c1" = none
    ∧ ("u1" ∈ (addUserToRoom (runSM demoJoinOps) "c2" "u1" "alice" "rB" 1).roomUsers
        "rB" ↔ "rB" = "rB")
    ∧ jsGet (addUserToRoom (runSM demoJoinOps) "c2" "u1" "alice" "rB" 1).userSessions
        "c2"
        = some { userId := "u1", username := "alice", socketId := "c2",
                 roomId := "rB", joinTime := 1, lastActivity := 1 } := by
  have h := session_registry_unique_and_eviction
  have h2 := h.2 demoJoinOps "c1" "c2" "u1" "alice" "rB" 1 demoSess
    (by decide) (by decide) (by decide)
  exact ⟨by decide, by decide, by decide, (h.1 demoJoinOps).1,
    h2.2.1, h2.2.2.1 "rB", h2.2.2.2.2⟩

/-- C4 (amended): `checkRateLimit` implements a sliding window over
the half-open interval (now − windowMs, now]: a call is admitted iff
the number of recorded timestamps with `now − time < windowMs` is
below `maxRequests`; on admission the stored list becomes the pruned
list plus `now`; on rejection the stored state is unchanged (stale
entries are not pruned from storage). A timestamp exactly `windowMs`
old falls outside the retained window, unlike the claim's closed
interval `[now − windowMs, now]`. The max=3/window=1000 scenario
holds: three calls at time 0 are admitted, the fourth is rejected,
and a call at time 1000, after the window has elapsed, is
admitted. -/
theorem checkRateLimit_spec :
    (∀ (s : SMState) (c : String) (maxR : Nat) (w now : Int),
      ((checkRateLimit s c maxR w now).1 = true
        ↔ ((s.rateLimitMap c).filter
            (fun time => now - time < w)).length < maxR)
      ∧ ((checkRateLimit s c maxR w now).1 = true →
          (checkRateLimit s c maxR w now).2.rateLimitMap c
            = (s.rateLimitMap c).filter (fun time => now - time < w) ++ [now])
      ∧ ((checkRateLimit s c maxR w now).1 = false →
          (checkRateLimit s c maxR w now).2 = s))
    ∧ runRateCalls initSM "c" 3 1000 [0, 0, 0, 0, 1000]
        = [true, true, true, false, true] := by
  constructor
  · intro s c maxR w now
    unfold checkRateLimit
    dsimp only
    by_cases hc :
        (List.filter (fun time => decide (now - time < w))
          (s.rateLimitMap c)).length ≥ maxR
    · rw [if_pos hc]
      refine ⟨?_, ?_, fun _ => rfl⟩
      · constructor
        · intro hfalse
          exact Bool.noConfusion hfalse
        · intro hlt
          exact absurd hlt (not_lt.mpr hc)
      · intro htrue
        exact Bool.noConfusion htrue
    · rw [if_neg hc]
      refine ⟨?_, ?_, ?_⟩
      · constructor
        · intro _
          omega
        · intro _
          rfl
      · intro _
        show mapSet s.rateLimitMap c _ c = _
        rw [mapSet_apply, if_pos rfl]
      · intro hfalse
        exact Bool.noConfusion hfalse
  · decide

/-- C4 witness: a socket with a recorded timestamp at 0, max 1,
window 1000, called at time 500: the recorded call is still inside
the window, so the call is rejected and the state is unchanged; the
full max=3/window=1000 scenario evaluates as the claim says. -/
theorem checkRateLimit_spec_witness :
    (checkRateLimit rlOneCallState "c" 1 1000 500).1 = false
    ∧ (checkRateLimit rlOneCallState "c" 1 1000 500).2 = rlOneCallState
    ∧ runRateCalls initSM "c" 3 1000 [0, 0, 0, 0, 1000]
        = [true, true, true, false, true] := by
  have h := checkRateLimit_spec
  exact ⟨by decide, (h.1 rlOneCallState "c" 1 1000 500).2.2 (by decide), h.2⟩

/-- C4 counterexample: a timestamp recorded at time 0, window 1000,
max 1, next call at time 1000: `now - time < windowMs` is false at
the boundary, so the code prunes the entry and admits the call,
while the claim's closed interval `[now − windowMs, now]` retains it
and mandates rejection. -/
theorem checkRateLimit_boundary_counterexample :
    (checkRateLimit rlOneCallState "c" 1 1000 1000).1 = true
    ∧ (checkRateLimitClaimClosedWindow rlOneCallState "c" 1 1000 1000).1
        = false := by
  constructor
  · decide
  · decide

/-- `checkRateLimit` never touches the session map. -/
theorem checkRateLimit_userSessions (s : SMState) (c : String) (m : Nat)
    (w t : Int) :
    (checkRateLimit s c m w t).2.userSessions = s.userSessions := by
  unfold checkRateLimit
  dsimp only
  split
  · rfl
  · rfl

/-- `removeUserFromRoom` leaves no session under the removed socket. -/
theorem removeRoom_clears_socket (s : SMState) (c : String)
    (h : (s.userSessions.map Prod.fst).Nodup) :
    jsGet (removeUserFromRoom s c).1.userSessions c = none := by
  cases hg : jsGet s.userSessions c with
  | none =>
    rw [removeRoom_none s c hg]
    exact hg
  | some sess =>
    rw [removeRoom_some s c sess hg]
    show jsGet (jsDelete s.userSessions c) c = none
    rw [jsGet_eq_none_iff]
    exact jsDelete_no_key h c

/-- C6: a send processed while the ban oracle reports the sender
banned — and not rate-limited — emits exactly one ban notice to that
connection, removes the sender's session, marks the connection
disconnected and leaves the message buffer untouched. The statement
quantifies over every session state, authenticated identity and
message content, so the outcome is decided by the ban re-check alone,
before session lookup, identity check and content validation. -/
theorem handleMessage_banned_spec (st : GwState) (clientId : String)
    (user : WsUser) (message type : String) (maxReq : Nat)
    (windowMs now : Int) (newId : String)
    (hkeys : (st.sm.userSessions.map Prod.fst).Nodup)
    (hrl : (checkRateLimit st.sm clientId maxReq windowMs now).1 = true)
    (hban : (checkUserBannedStatus st.users user.userId).isBanned = true) :
    (handleMessage st clientId user message type maxReq windowMs now newId).2
      = [GwEvent.userBannedEvt clientId
          (checkUserBannedStatus st.users user.userId).bannedReason]
    ∧ (handleMessage st clientId user message type maxReq windowMs now
        newId).1.buf = st.buf
    ∧ jsGet (handleMessage st clientId user message type maxReq windowMs now
        newId).1.sm.userSessions clientId = none
    ∧ clientId ∈ (handleMessage st clientId user message type maxReq windowMs
        now newId).1.disconnected := by
  have hnotfalse :
      ¬ ((checkRateLimit st.sm clientId maxReq windowMs now).1 = false) := by
    rw [hrl]
    exact Bool.noConfusion
  unfold handleMessage
  dsimp only
  rw [if_neg hnotfalse, if_pos hban]
  refine ⟨rfl, rfl, ?_, ?_⟩
  · apply removeRoom_clears_socket
    rw [checkRateLimit_userSessions]
    exact hkeys
  · show clientId ∈ st.disconnected ++ [clientId]
    rw [List.mem_append]
    right
    exact List.mem_singleton.mpr rfl

/-- C6 witness: "u1" is banned yet still holds a live session on
"c1"; a well-formed send of "hello" yields exactly the ban notice,
an unchanged buffer, no session under "c1", and "c1" marked
disconnected. -/
theorem handleMessage_banned_spec_witness :
    (gwBanState.sm.userSessions.map Prod.fst).Nodup
    ∧ (checkRateLimit gwBanState.sm "c1" 30 60000 10).1 = true
    ∧ (checkUserBannedStatus gwBanState.users "u1").isBanned = true
    ∧ (handleMessage gwBanState "c1" { userId := "u1", fullName := "alice" }
        "hello" "text" 30 60000 10 "m9").2
      = [GwEvent.userBannedEvt "c1" (some "spam")]
    ∧ (handleMessage gwBanState "c1" { userId := "u1", fullName := "alice" }
        "hello" "text" 30 60000 10 "m9").1.buf = gwBanState.buf
    ∧ jsGet (handleMessage gwBanState "c1" { userId := "u1", fullName := "alice" }
        "hello" "text" 30 60000 10 "m9").1.sm.userSessions "c1" = none
    ∧ "c1" ∈ (handleMessage gwBanState "c1" { userId := "u1", fullName := "alice" }
        "hello" "text" 30 60000 10 "m9").1.disconnected := by
  have h := handleMessage_banned_spec gwBanState "c1"
    { userId := "u1", fullName := "alice" } "hello" "text" 30 60000 10 "m9"
    (by decide) (by decide) (by decide)
  exact ⟨by decide, by decide, by decide, h.1.trans (by decide), h.2.1,
    h.2.2.1, h.2.2.2⟩

/-- C7 (code bug, evaluated at the failing input): user "u1" is not
banned and holds a live session on connection "c1". `banUser`
succeeds, rejects the unknown-user and already-banned cases as
claimed, and removes the live session — but emits no `user:banned`
termination notice at all: the socket lookup runs after
`disconnectUser` has already purged the registry, so the only event
is the moderator broadcast, although "c1" had a live session at the
time of the call. -/
theorem banUser_no_termination_notice :
    jsGet gwLiveState.sm.userSessions "c1" = some demoSess
    ∧ demoSess.userId = "u1"
    ∧ adminOk (banUser gwLiveState "u1" (some "spam") "admin" 5) = true
    ∧ banUserEvents gwLiveState "u1" (some "spam") "admin" 5
        = [GwEvent.adminUserBannedEvt "u1" (some "spam") "admin"]
    ∧ jsGet (disconnectUser gwLiveState.sm "u1").userSessions "c1" = none
    ∧ banUser gwBanState "u1" (some "x") "admin" 6
        = Except.error AdminError.badRequest
    ∧ banUser gwLiveState "zz" none "admin" 6
        = Except.error AdminError.notFound := by
  refine ⟨by decide, by decide, by decide, by decide, by decide, rfl, rfl⟩

/-- C9: the buffer deletion reports "found" exactly when the room's
recent cache holds the message id, the durable deletion reports
`deletedCount = 1` exactly when the store holds a matching document,
`deleteMessage` raises not-found iff neither found the message
("found" is the logical OR of both), on success both deletions are
applied, and the cache afterwards no longer holds the id. The buffer
deletion itself is modelled from the spec, its definition being
absent from the sources. -/
theorem adminDeleteMessage_spec (buf : BufState) (store : List DbChatMessage)
    (messageId roomId : String) :
    ((bufferDeleteMessage buf messageId roomId).1 = true
      ↔ ∃ m ∈ (buf.recentMessages roomId).getD [], m.id = messageId)
    ∧ ((dbDeleteOne store messageId roomId).1 = 1
      ↔ ∃ m ∈ store, m.id = messageId ∧ m.roomId = roomId)
    ∧ (adminDeleteMessage buf store messageId roomId
        = Except.error AdminError.notFound
      ↔ ((bufferDeleteMessage buf messageId roomId).1 = false
        ∧ (dbDeleteOne store messageId roomId).1 = 0))
    ∧ ((bufferDeleteMessage buf messageId roomId).1 = true
        ∨ (dbDeleteOne store messageId roomId).1 = 1 →
      adminDeleteMessage buf store messageId roomId
        = Except.ok ((bufferDeleteMessage buf messageId roomId).2,
            (dbDeleteOne store messageId roomId).2))
    ∧ (∀ m ∈ ((bufferDeleteMessage buf messageId roomId).2.recentMessages
        roomId).getD [], ¬ (m.id = messageId)) := by
  refine ⟨?_, ?_, ?_, ?_, ?_⟩
  · unfold bufferDeleteMessage
    by_cases h : ((buf.recentMessages roomId).getD []).any
        (fun m => m.id = messageId) = true
    · rw [if_pos h]
      simp only [true_iff]
      obtain ⟨m, hm, hid⟩ := List.any_eq_true.mp h
      exact ⟨m, hm, of_decide_eq_true hid⟩
    · rw [if_neg h]
      simp only [Bool.false_eq_true, false_iff]
      rintro ⟨m, hm, hid⟩
      exact h (List.any_eq_true.mpr ⟨m, hm, decide_eq_true hid⟩)
  · unfold dbDeleteOne
    by_cases h : store.any
        (fun m => m.id = messageId ∧ m.roomId = roomId) = true
    · rw [if_pos h]
      simp only [true_iff]
      obtain ⟨m, hm, hid⟩ := List.any_eq_true.mp h
      exact ⟨m, hm, of_decide_eq_true hid⟩
    · rw [if_neg h]
      simp only []
      constructor
      · intro hh
        exact absurd hh (by decide)
      · rintro ⟨m, hm, hid⟩
        exact absurd (List.any_eq_true.mpr ⟨m, hm, decide_eq_true hid⟩) h
  · unfold adminDeleteMessage
    dsimp only
    by_cases h : (bufferDeleteMessage buf messageId roomId).1 = false
        ∧ (dbDeleteOne store messageId roomId).1 = 0
    · rw [if_pos h]
      exact ⟨fun _ => h, fun _ => rfl⟩
    · rw [if_neg h]
      constructor
      · intro hh
        exact Except.noConfusion hh
      · intro hh
        exact absurd hh h
  · intro hor
    have hcond : ¬ ((bufferDeleteMessage buf messageId roomId).1 = false
        ∧ (dbDeleteOne store messageId roomId).1 = 0) := by
      rintro ⟨h1, h2⟩
      rcases hor with h | h
      · rw [h] at h1
        exact Bool.noConfusion h1
      · rw [h] at h2
        exact absurd h2 (by decide)
    unfold adminDeleteMessage
    dsimp only
    rw [if_neg hcond]
  · intro m hm
    unfold bufferDeleteMessage at hm
    by_cases h : ((buf.recentMessages roomId).getD []).any
        (fun m => m.id = messageId) = true
    · rw [if_pos h] at hm
      have hm' : m ∈ ((buf.recentMessages roomId).getD []).filter
          (fun m => m.id ≠ messageId) := by
        have : (mapSet buf.recentMessages roomId
            (some (((buf.recentMessages roomId).getD []).filter
              (fun m => m.id ≠ messageId))) roomId).getD []
            = ((buf.recentMessages roomId).getD []).filter
              (fun m => m.id ≠ messageId) := by
          rw [mapSet_apply, if_pos rfl]
          rfl
        rw [← this]
        exact hm
      have := (List.mem_filter.mp hm').2
      intro hid
      rw [hid] at this
      simp at this
    · rw [if_neg h] at hm
      intro hid
      exact h (List.any_eq_true.mpr ⟨m, hm, decide_eq_true hid⟩)

/-- C9 witness: a buffer caching message "m1" in room "r1" and an
empty durable store: deleting "m1" succeeds through the cache alone,
and deleting an unknown id raises not-found. -/
theorem adminDeleteMessage_spec_witness :
    ((bufferDeleteMessage demoBufTwoRooms "m1" "r1").1 = true
      ∨ (dbDeleteOne [] "m1" "r1").1 = 1)
    ∧ adminDeleteMessage demoBufTwoRooms [] "m1" "r1"
        = Except.ok ((bufferDeleteMessage demoBufTwoRooms "m1" "r1").2,
            (dbDeleteOne [] "m1" "r1").2)
    ∧ adminDeleteMessage demoBufTwoRooms [] "nope" "r1"
        = Except.error AdminError.notFound := by
  have h := adminDeleteMessage_spec demoBufTwoRooms [] "m1" "r1"
  have h2 := adminDeleteMessage_spec demoBufTwoRooms [] "nope" "r1"
  exact ⟨Or.inl (by decide), h.2.2.2.1 (Or.inl (by decide)),
    h2.2.2.1.mpr ⟨by decide, by decide⟩⟩
